import Mathlib

/-!
Verification development for the LangChain compatibility adapter
(`langchain_compatibility_adapter.py`): a synchronous bridge over an
asynchronous agent, together with its history codec, tool dispatch and
info reporting.  External effects (agent construction, the agent's
answer operation, tool execution, bounded waits on worker threads) are
modelled as explicit environment/outcome parameters; everything else is
translated directly from the source.
-/

namespace Adapter

/-- Python-style values, as they appear in `additional_kwargs` metadata
maps, configuration mappings and tool results. `null` is Python `None`. -/
inductive Val where
  | null : Val
  | str : String → Val
  | num : Int → Val
  | bool : Bool → Val
  | list : List Val → Val
  | dict : List (String × Val) → Val


/-- A Python dict with string keys, as an ordered association list
(first occurrence of a key is authoritative, matching `dict.get`). -/
abbrev Meta := List (String × Val)

/-- `d.get(k)` / `d.get(k, default)` support: first value bound to `k`. -/
def dictGet (d : Meta) (k : String) : Option Val :=
  (d.find? (fun p => p.1 == k)).map (fun p => p.2)

/-- Python `dict.update`: keys already in `base` keep their position and
take the value from `upd` when present; keys only in `upd` are appended
in `upd` order. -/
def dictUpdate (base upd : Meta) : Meta :=
  base.map (fun p => (p.1, (dictGet upd p.1).getD p.2)) ++
    upd.filter (fun p => (dictGet base p.1).isNone)

/-- Python `d[k] = v`: overwrite in place if `k` is present, else append. -/
def dictSet (d : Meta) (k : String) (v : Val) : Meta :=
  if (dictGet d k).isSome then
    d.map (fun p => if p.1 == k then (k, v) else p)
  else
    d ++ [(k, v)]

/-- LangChain message records as the adapter observes them: a variant tag
(`HumanMessage` / `AIMessage` / any other `BaseMessage` subtype), the text
content and the `additional_kwargs` metadata map. -/
inductive BaseMessage where
  | human (content : String) (additional_kwargs : Meta)
  | ai (content : String) (additional_kwargs : Meta)
  | other (content : String) (additional_kwargs : Meta)


/-- `msg.content`. -/
def BaseMessage.content : BaseMessage → String
  | .human c _ => c
  | .ai c _ => c
  | .other c _ => c

/-- `msg.additional_kwargs`. -/
def BaseMessage.additional_kwargs : BaseMessage → Meta
  | .human _ k => k
  | .ai _ k => k
  | .other _ k => k

/-- The role tag chosen by `_serialize_history` via `isinstance` checks. -/
def roleOf : BaseMessage → String
  | .human _ _ => "user"
  | .ai _ _ => "assistant"
  | .other _ _ => "system"

/-- The nested `content` structure of one encoded entry:
`\x7b"content": text, "additional_kwargs": metadata\x7d`.  Fields are
optional because `_deserialize_history` reads them with `.get` defaults;
`none` models an absent key. -/
structure ContentData where
  content : Option String
  additional_kwargs : Option Meta


/-- One entry of the encoded (transport) history:
`\x7b"role": ..., "content": ...\x7d`, with optional fields matching
`msg.get("role")` and `msg.get("content", \x7b\x7d)`. -/
structure EncEntry where
  role : Option String
  content : Option ContentData


/-- `_serialize_history`: each record becomes
`\x7b"role": roleOf msg, "content": \x7b"content": msg.content,
"additional_kwargs": msg.additional_kwargs\x7d\x7d`, order preserved. -/
def _serialize_history (messages : List BaseMessage) : List EncEntry :=
  messages.map (fun msg =>
    { role := some (roleOf msg)
      content := some { content := some msg.content
                        additional_kwargs := some msg.additional_kwargs } })

/-- The per-entry step of `_deserialize_history`: read `role`,
`content.content` (default `""`) and `content.additional_kwargs`
(default `\x7b\x7d`); build a `HumanMessage(content=...)` for role
`"user"` (its `additional_kwargs` defaults to the empty map), an
`AIMessage(content=..., additional_kwargs=...)` for role `"assistant"`,
and drop every other role. -/
def decodeEntry (msg : EncEntry) : Option BaseMessage :=
  let content_data := msg.content.getD { content := none, additional_kwargs := none }
  let content := content_data.content.getD ""
  let kwargs := content_data.additional_kwargs.getD []
  match msg.role with
  | some "user" => some (.human content [])
  | some "assistant" => some (.ai content kwargs)
  | _ => none

/-- `_deserialize_history`: appends the decoded record for each entry that
decodes, in order. -/
def _deserialize_history (history : List EncEntry) : List BaseMessage :=
  history.filterMap decodeEntry

/-- An asyncio event loop handle; opaque to the adapter, identified only
by reference identity. -/
structure EventLoop where
  id : Nat
deriving DecidableEq

/-- A LangChain tool as seen by the adapter: `t.name`, `t.description`
and the optional declared argument schema (`args_schema`, already
rendered to its schema dict). -/
structure Tool where
  name : String
  description : String
  args_schema : Option Meta

/-- The `MalloyLangChainAgent` handle, opaque except for the surface the
adapter consumes: its `tools` list and the outcome of
`agent.get_agent_info()` (`Except.error` models that call raising). -/
structure Agent where
  tools : List Tool
  agent_info : Except String Meta

/-- The adapter state: stored constructor kwargs, and the lazily created
agent and event loop fields (both `None` at construction). -/
structure AdapterState where
  agent_kwargs : Meta
  agent : Option Agent
  loop : Option EventLoop

/-- `LangChainCompatibilityAdapter(**kwargs)`. -/
def adapterInit (kwargs : Meta) : AdapterState :=
  { agent_kwargs := kwargs, agent := none, loop := none }

/-- Environment for one call of `_setup_agent_if_needed`, capturing which
branch runs and the outcome of the external async work there.

`noAmbient lp res`: `asyncio.get_running_loop()` raised `RuntimeError`
(no running loop); `lp` is the loop made by `asyncio.new_event_loop()`
(assigned to `self.loop` before the agent is built), and `res` is the
outcome of driving `create_malloy_agent(**kwargs)` then `agent.setup()`.

`ambient res`: a loop was already running, so the same construction runs
on a fresh worker thread with its own new loop; `res = none` models
`future.result(timeout=60)` raising its timeout error, `some (.error m)`
an exception raised by the worker (whose partially created loop is
closed before re-raising), and `some (.ok (agent, loop))` success. -/
inductive SetupEnv where
  | noAmbient (lp : EventLoop) (res : Except String Agent)
  | ambient (res : Option (Except String (Agent × EventLoop)))

/-- `str(e)` for the exception `future.result(timeout=...)` raises on
expiry: `concurrent.futures.TimeoutError` stringifies to `""`. -/
def timeoutStr : String := ""

/-- `_setup_agent_if_needed`: no-op when `self.agent` is already set;
otherwise runs the branch recorded in `env`.  Returns the new state and
`some msg` when the call raises (with `msg = str(e)`).  In the
`noAmbient` branch `self.loop` is assigned before agent construction, so
it stays set even when construction fails; in the `ambient` branch both
fields are assigned together from the worker's result. -/
def _setup_agent_if_needed (s : AdapterState) (env : SetupEnv) :
    AdapterState × Option String :=
  if s.agent.isSome then (s, none)
  else
    match env with
    | .noAmbient lp res =>
      let s1 := { s with loop := some lp }
      match res with
      | .ok agent => ({ s1 with agent := some agent }, none)
      | .error m => (s1, some m)
    | .ambient none => (s, some timeoutStr)
    | .ambient (some (.error m)) => (s, some m)
    | .ambient (some (.ok (agent, lp))) =>
      ({ s with agent := some agent, loop := some lp }, none)

/-- Outcome of driving `self.agent.process_question(question)` followed by
`self.agent.get_conversation_history()` on the worker thread:
`answered success response final_history`, or `raised msg` when either
raises (`_run_question_in_new_loop` re-raises it unchanged). -/
inductive AnswerOutcome where
  | answered (success : Bool) (response : String)
      (final_history : List BaseMessage)
  | raised (msg : String)

/-- `_run_question_in_new_loop`: raises `RuntimeError` when `self.agent`
or `self.loop` is unset, otherwise rebinds the thread to the stored loop
and forwards the agent outcome.  The `history` parameter is accepted but
never read (the agent keeps history internally). -/
def _run_question_in_new_loop (s : AdapterState) (question : String)
    (history : Option (List EncEntry)) (env : AnswerOutcome) :
    Except String (Bool × String × List BaseMessage) :=
  if s.agent.isNone || s.loop.isNone then
    .error "Adapter not initialized. Call _setup_agent_if_needed first."
  else
    match env with
    | .answered success response final_history =>
      .ok (success, response, final_history)
    | .raised m => .error m

/-- `process_user_question`: ensure setup, submit
`_run_question_in_new_loop` to a one-worker executor, wait on it with a
300-unit bound (`wait = none` models that wait timing out), serialize the
returned history, and convert every exception into
`(False, "Error in LangChain processing: " ++ str(e), [])`.  Returns the
updated adapter state alongside the result triple. -/
def process_user_question (s : AdapterState) (user_question : String)
    (history : Option (List EncEntry)) (senv : SetupEnv)
    (wait : Option AnswerOutcome) :
    AdapterState × (Bool × String × List EncEntry) :=
  match _setup_agent_if_needed s senv with
  | (s1, some e) => (s1, (false, "Error in LangChain processing: " ++ e, []))
  | (s1, none) =>
    match wait with
    | none => (s1, (false, "Error in LangChain processing: " ++ timeoutStr, []))
    | some aenv =>
      match _run_question_in_new_loop s1 user_question history aenv with
      | .error e => (s1, (false, "Error in LangChain processing: " ++ e, []))
      | .ok (success, response, final_history_obj) =>
        (s1, (success, response, _serialize_history final_history_obj))

/-- Models the external `json.dumps(v, indent=2)` / `str(v)` renderings
used by `call_tool` on a tool result: some total textual form.  No claim
depends on the exact text, only on which branch produces it. -/
def renderVal : Val → String
  | .null => "null"
  | .str s => "\"" ++ s ++ "\""
  | .num n => toString n
  | .bool b => if b then "true" else "false"
  | .list xs => "[" ++ String.intercalate ", " (xs.attach.map (fun x => renderVal x.1)) ++ "]"
  | .dict xs =>
    "\x7b" ++
      String.intercalate ", "
        (xs.attach.map (fun p => "\"" ++ p.1.1 ++ "\": " ++ renderVal p.1.2)) ++
    "\x7d"
decreasing_by
  · have h := List.sizeOf_lt_of_mem x.2
    simp only [Val.list.sizeOf_spec]
    omega
  · obtain ⟨⟨a, b⟩, hm⟩ := p
    have h := List.sizeOf_lt_of_mem hm
    simp only [Prod.mk.sizeOf_spec] at h
    simp only [Val.dict.sizeOf_spec]
    omega

/-- `str(result)` for a non-dict tool result. -/
def pyStr : Val → String
  | .str s => s
  | v => renderVal v

/-- `call_tool(tool_name, **kwargs)`: sentinel string when the agent is
not initialized; linear search of `self.agent.tools` for the first tool
with the exact name, sentinel string when none matches; otherwise run the
tool (`run_outcome` is the external outcome of `tool.run(**kwargs)`) and
render its result, converting an exception into a descriptive string. -/
def call_tool (s : AdapterState) (tool_name : String) (kwargs : Meta)
    (run_outcome : Except String Val) : String :=
  match s.agent with
  | none => "Error: LangChain agent not initialized"
  | some agent =>
    match agent.tools.find? (fun t => t.name == tool_name) with
    | none => "Error: Tool \x27" ++ tool_name ++ "\x27 not found"
    | some _ =>
      match run_outcome with
      | .ok (.dict d) => renderVal (.dict d)
      | .ok v => pyStr v
      | .error e => "Error calling tool " ++ tool_name ++ ": " ++ e

/-- The `base_info` dict built by `get_agent_info` from the stored
kwargs: provider/model/url default to `"unknown"`, the vertex fields to
`None`, and `setup_complete` reports whether the agent exists. -/
def base_info (s : AdapterState) : Meta :=
  [("adapter_type", .str "LangChain"),
   ("llm_provider", (dictGet s.agent_kwargs "llm_provider").getD (.str "unknown")),
   ("llm_model", (dictGet s.agent_kwargs "llm_model").getD (.str "unknown")),
   ("mcp_url", (dictGet s.agent_kwargs "mcp_url").getD (.str "unknown")),
   ("setup_complete", .bool s.agent.isSome),
   ("vertex_project_id", (dictGet s.agent_kwargs "vertex_project_id").getD .null),
   ("vertex_location", (dictGet s.agent_kwargs "vertex_location").getD .null)]

/-- `get_agent_info`: the base info dict, and when the agent exists,
`base_info.update(agent.get_agent_info())` on success or
`base_info["error"] = str(e)` when that call raises. -/
def get_agent_info (s : AdapterState) : Meta :=
  let base := base_info s
  match s.agent with
  | none => base
  | some agent =>
    match agent.agent_info with
    | .ok langchain_info => dictUpdate base langchain_info
    | .error e => dictSet base "error" (.str e)

/-! ## History codec properties -/

/-- An entry whose role is neither `"user"` nor `"assistant"` decodes to
nothing. -/
theorem decodeEntry_eq_none_of_unknown_role (e : EncEntry)
    (h1 : e.role ≠ some "user") (h2 : e.role ≠ some "assistant") :
    decodeEntry e = none := by
  unfold decodeEntry
  split
  · next heq => exact absurd heq h1
  · next heq => exact absurd heq h2
  · rfl

/-- Claim C3: decoding the encoding of a singleton assistant record
yields the same record: `_deserialize_history (_serialize_history [M]) = [M]`
for every assistant message `M` with text content and an
`additional_kwargs` metadata map. -/
theorem assistant_record_roundtrip (content : String) (kwargs : Meta) :
    _deserialize_history (_serialize_history [BaseMessage.ai content kwargs]) =
      [BaseMessage.ai content kwargs] := rfl

/-- Claim C4: `_deserialize_history` silently drops every entry whose role
is neither `"user"` nor `"assistant"`, so its output is never longer than
its input; dropping is per-entry (an entry with any other role contributes
nothing), and in particular a singleton `"system"` entry decodes to the
empty list. -/
theorem deserialize_role_filtering (history rest : List EncEntry) (e : EncEntry)
    (h1 : e.role ≠ some "user") (h2 : e.role ≠ some "assistant") :
    (_deserialize_history history).length ≤ history.length ∧
    _deserialize_history (e :: rest) = _deserialize_history rest ∧
    _deserialize_history [e] = [] := by
  have hd := decodeEntry_eq_none_of_unknown_role e h1 h2
  refine ⟨List.length_filterMap_le _ _, ?_, ?_⟩
  · simp [_deserialize_history, List.filterMap_cons, hd]
  · simp [_deserialize_history, List.filterMap_cons, hd]

/-- A concrete `"system"` entry for instantiating the codec theorems. -/
def sysEntry : EncEntry :=
  { role := some "system"
    content := some { content := some "You are a bot.", additional_kwargs := some [] } }

/-- Witness for `deserialize_role_filtering` at a concrete system entry. -/
theorem deserialize_role_filtering_witness :
    (_deserialize_history [sysEntry]).length ≤ [sysEntry].length ∧
    _deserialize_history (sysEntry :: []) = _deserialize_history [] ∧
    _deserialize_history [sysEntry] = [] :=
  deserialize_role_filtering [sysEntry] [] sysEntry
    (by simp [sysEntry]) (by simp [sysEntry])

/-- Claim C5: decoding an entry with role `"user"` keeps only the nested
`content.content` text; the entry's `additional_kwargs` metadata is not
restored onto the record (the constructed `HumanMessage` carries the
default empty metadata map), for every metadata value present. -/
theorem deserialize_user_ignores_metadata (text : String) (kwargs : Meta) :
    _deserialize_history
        [{ role := some "user"
           content := some { content := some text, additional_kwargs := some kwargs } }] =
      [BaseMessage.human text []] := rfl

/-- Claim C9: `_deserialize_history` is total on malformed `"user"` /
`"assistant"` entries: a missing `content` mapping or missing
`content` / `additional_kwargs` keys yield the empty string as text and
(for assistant records) the empty metadata map, never a failure. -/
theorem deserialize_malformed_total (text : String) (kwargs : Meta) :
    _deserialize_history [{ role := some "user", content := none }] =
      [BaseMessage.human "" []] ∧
    _deserialize_history [{ role := some "assistant", content := none }] =
      [BaseMessage.ai "" []] ∧
    _deserialize_history
        [{ role := some "user"
           content := some { content := none, additional_kwargs := none } }] =
      [BaseMessage.human "" []] ∧
    _deserialize_history
        [{ role := some "assistant"
           content := some { content := none, additional_kwargs := none } }] =
      [BaseMessage.ai "" []] ∧
    _deserialize_history
        [{ role := some "assistant"
           content := some { content := some text, additional_kwargs := none } }] =
      [BaseMessage.ai text []] ∧
    _deserialize_history
        [{ role := some "assistant"
           content := some { content := none, additional_kwargs := some kwargs } }] =
      [BaseMessage.ai "" kwargs] :=
  ⟨rfl, rfl, rfl, rfl, rfl, rfl⟩

/-! ## Bridge lifecycle and per-question execution -/

/-- A concrete agent handle for instantiating the bridge theorems. -/
def demoAgent : Agent :=
  { tools := [{ name := "execute_malloy_query"
                description := "Run a Malloy query"
                args_schema := none }]
    agent_info := .ok [("agent_type", Val.str "langgraph"),
                       ("setup_complete", Val.str "yes")] }

/-- A bridge state after a successful lazy setup. -/
def readyState : AdapterState :=
  { agent_kwargs := [], agent := some demoAgent, loop := some ⟨0⟩ }

/-- Claim C2: once the agent field is set, `_setup_agent_if_needed` is a
no-op — it reports no failure and leaves the whole state (both the agent
and the loop field) unchanged, whatever branch environment is supplied —
and folding any number of further calls over the state changes nothing. -/
theorem setup_idempotent (s : AdapterState) (env : SetupEnv)
    (envs : List SetupEnv) (h : s.agent.isSome = true) :
    _setup_agent_if_needed s env = (s, none) ∧
    envs.foldl (fun st e => (_setup_agent_if_needed st e).1) s = s := by
  have h1 : ∀ e, _setup_agent_if_needed s e = (s, none) := by
    intro e
    unfold _setup_agent_if_needed
    rw [if_pos h]
  refine ⟨h1 env, ?_⟩
  induction envs with
  | nil => rfl
  | cons e es ih => rw [List.foldl_cons, h1 e, ih]

/-- Witness for `setup_idempotent` on a concrete initialized state. -/
theorem setup_idempotent_witness :
    _setup_agent_if_needed readyState (SetupEnv.ambient none) = (readyState, none) ∧
    [SetupEnv.ambient none, SetupEnv.noAmbient ⟨1⟩ (.error "boom")].foldl
        (fun st e => (_setup_agent_if_needed st e).1) readyState = readyState :=
  setup_idempotent readyState (SetupEnv.ambient none)
    [SetupEnv.ambient none, SetupEnv.noAmbient ⟨1⟩ (.error "boom")] rfl

/-- Every message produced by the `except` clause of
`process_user_question` contains `"Error"`. -/
theorem errorPrefixed (e : String) :
    ∃ pre suf, "Error in LangChain processing: " ++ e = pre ++ "Error" ++ suf := by
  refine ⟨"", " in LangChain processing: " ++ e, ?_⟩
  rw [← String.append_assoc]
  rfl

/-- `_run_question_in_new_loop` turns a raised agent exception into an
error, whether or not the adapter fields are set (unset fields raise the
`RuntimeError` instead). -/
theorem run_question_raised (s : AdapterState) (q : String)
    (history : Option (List EncEntry)) (m : String) :
    ∃ e, _run_question_in_new_loop s q history (.raised m) = .error e := by
  unfold _run_question_in_new_loop
  by_cases hc : (s.agent.isNone || s.loop.isNone) = true
  · exact ⟨_, by rw [if_pos hc]⟩
  · exact ⟨m, by rw [if_neg hc]⟩

/-- Claim C1: `process_user_question` never lets a failure escape: when
setup fails (exception or 60-unit timeout), when the 300-unit wait on the
worker expires, or when the answer phase raises, it returns
`(false, msg, [])` with `"Error"` occurring in `msg`. -/
theorem process_failure_tuple (s : AdapterState) (q : String)
    (history : Option (List EncEntry)) (senv : SetupEnv)
    (wait : Option AnswerOutcome)
    (hfail : (_setup_agent_if_needed s senv).2.isSome = true ∨ wait = none ∨
      (∃ m, wait = some (.raised m))) :
    ∃ msg, (process_user_question s q history senv wait).2 = (false, msg, []) ∧
      ∃ pre suf, msg = pre ++ "Error" ++ suf := by
  rcases hs : _setup_agent_if_needed s senv with ⟨s1, oe⟩
  cases oe with
  | some e =>
    refine ⟨"Error in LangChain processing: " ++ e, ?_, errorPrefixed e⟩
    unfold process_user_question
    rw [hs]
  | none =>
    rcases hfail with h1 | h2 | ⟨m, h3⟩
    · rw [hs] at h1
      simp at h1
    · subst h2
      refine ⟨"Error in LangChain processing: " ++ timeoutStr, ?_, errorPrefixed _⟩
      unfold process_user_question
      rw [hs]
    · subst h3
      obtain ⟨e, he⟩ := run_question_raised s1 q history m
      refine ⟨"Error in LangChain processing: " ++ e, ?_, errorPrefixed e⟩
      unfold process_user_question
      rw [hs]
      simp only [he]

/-- Witness for `process_failure_tuple`: a fresh bridge whose setup times
out on the bounded worker wait. -/
theorem process_failure_tuple_witness :
    ∃ msg, (process_user_question (adapterInit []) "What is 2+2?" none
        (SetupEnv.ambient none) none).2 = (false, msg, []) ∧
      ∃ pre suf, msg = pre ++ "Error" ++ suf :=
  process_failure_tuple (adapterInit []) "What is 2+2?" none
    (SetupEnv.ambient none) none (Or.inl rfl)

/-- Claim C6: the `history` argument has no influence on
`process_user_question`: any two history values (including the absent
one) give identical results in every environment, because the parameter
is never forwarded to the agent. -/
theorem process_history_no_influence (s : AdapterState) (q : String)
    (h1 h2 : Option (List EncEntry)) (senv : SetupEnv)
    (wait : Option AnswerOutcome) :
    process_user_question s q h1 senv wait =
      process_user_question s q h2 senv wait := rfl

/-! ## Tool dispatch and info reporting -/

/-- A never-initialized bridge over an empty configuration. -/
def freshState : AdapterState := adapterInit []

/-- Claim C7: `call_tool` is total and returns exact sentinel strings in
both failure-to-dispatch cases: the uninitialized-agent sentinel when the
agent field is unset, and the tool-not-found sentinel when the linear
name lookup among the agent's tools finds no exact match. -/
theorem call_tool_sentinels (s : AdapterState) (tool_name : String)
    (kwargs : Meta) (run_outcome : Except String Val) :
    (s.agent = none →
      call_tool s tool_name kwargs run_outcome =
        "Error: LangChain agent not initialized") ∧
    (∀ agent, s.agent = some agent →
      agent.tools.find? (fun t => t.name == tool_name) = none →
      call_tool s tool_name kwargs run_outcome =
        "Error: Tool \x27" ++ tool_name ++ "\x27 not found") := by
  constructor
  · intro h
    unfold call_tool
    rw [h]
  · intro agent h hf
    unfold call_tool
    rw [h]
    simp only [hf]

/-- Witness for `call_tool_sentinels`: before initialization, and after
initialization with a tool list not containing the requested name. -/
theorem call_tool_sentinels_witness :
    call_tool freshState "nonexistent_tool" [] (.ok .null) =
      "Error: LangChain agent not initialized" ∧
    call_tool readyState "nonexistent_tool" [] (.ok .null) =
      "Error: Tool \x27" ++ "nonexistent_tool" ++ "\x27 not found" :=
  ⟨(call_tool_sentinels freshState "nonexistent_tool" [] (.ok .null)).1 rfl,
   (call_tool_sentinels readyState "nonexistent_tool" [] (.ok .null)).2
     demoAgent rfl rfl⟩

/-- Claim C8, counterexample: on a freshly constructed bridge with no
configuration, `get_agent_info` maps `vertex_project_id` to `None`, not
to the `"unknown"` default the claim asserts for all
configuration-derived fields. -/
theorem get_agent_info_fresh_cex :
    dictGet (get_agent_info (adapterInit [])) "vertex_project_id" =
      some Val.null ∧
    some Val.null ≠ some (Val.str "unknown") := by
  refine ⟨rfl, ?_⟩
  intro h
  injection h with h2
  exact Val.noConfusion h2

/-- Claim C8, amended: on a freshly constructed, never-initialized bridge
whose configuration supplies none of the reported keys, `get_agent_info`
returns the map with `setup_complete: false`, the `adapter_type` tag, the
provider/model/endpoint fields defaulting to `"unknown"`, and the vertex
project/location fields defaulting to the absent value `None`. -/
theorem get_agent_info_fresh (kw : Meta)
    (hp : dictGet kw "llm_provider" = none)
    (hm : dictGet kw "llm_model" = none)
    (hu : dictGet kw "mcp_url" = none)
    (hv : dictGet kw "vertex_project_id" = none)
    (hl : dictGet kw "vertex_location" = none) :
    get_agent_info (adapterInit kw) =
      [("adapter_type", Val.str "LangChain"),
       ("llm_provider", Val.str "unknown"),
       ("llm_model", Val.str "unknown"),
       ("mcp_url", Val.str "unknown"),
       ("setup_complete", Val.bool false),
       ("vertex_project_id", Val.null),
       ("vertex_location", Val.null)] := by
  unfold get_agent_info adapterInit base_info
  simp [hp, hm, hu, hv, hl]

/-- Witness for `get_agent_info_fresh` at the empty configuration. -/
theorem get_agent_info_fresh_witness :
    get_agent_info (adapterInit []) =
      [("adapter_type", Val.str "LangChain"),
       ("llm_provider", Val.str "unknown"),
       ("llm_model", Val.str "unknown"),
       ("mcp_url", Val.str "unknown"),
       ("setup_complete", Val.bool false),
       ("vertex_project_id", Val.null),
       ("vertex_location", Val.null)] :=
  get_agent_info_fresh [] rfl rfl rfl rfl rfl

/-- Two predicates that agree on every element find the same result. -/
theorem find?_ext {α : Type} (l : List α) (p q : α → Bool)
    (h : ∀ a, p a = q a) : l.find? p = l.find? q := by
  induction l with
  | nil => rfl
  | cons a l ih =>
    by_cases hp : p a = true
    · rw [List.find?_cons_of_pos l hp, List.find?_cons_of_pos l (h a ▸ hp)]
    · rw [List.find?_cons_of_neg l hp, List.find?_cons_of_neg l (fun hq => hp (h a ▸ hq)), ih]

/-- Filtering cannot create a match where none existed. -/
theorem find?_filter_none {α : Type} (l : List α) (p c : α → Bool)
    (h : l.find? p = none) : (l.filter c).find? p = none := by
  induction l with
  | nil => rfl
  | cons a l ih =>
    by_cases hp : p a = true
    · rw [List.find?_cons_of_pos l hp] at h
      exact absurd h (by simp)
    · rw [List.find?_cons_of_neg l hp] at h
      rw [List.filter_cons]
      by_cases hc : c a = true
      · rw [if_pos hc, List.find?_cons_of_neg _ hp]
        exact ih h
      · rw [if_neg hc]
        exact ih h

/-- Filtering by a condition that holds on every match is invisible to
`find?`. -/
theorem find?_filter_of_imp {α : Type} (l : List α) (p c : α → Bool)
    (h : ∀ a, p a = true → c a = true) : (l.filter c).find? p = l.find? p := by
  induction l with
  | nil => rfl
  | cons a l ih =>
    rw [List.filter_cons]
    by_cases hp : p a = true
    · rw [if_pos (h a hp), List.find?_cons_of_pos _ hp, List.find?_cons_of_pos _ hp]
    · rw [List.find?_cons_of_neg l hp]
      by_cases hc : c a = true
      · rw [if_pos hc, List.find?_cons_of_neg _ hp]
        exact ih
      · rw [if_neg hc]
        exact ih

/-- Lookup in a Python-style `dict.update`: a key present in `upd` takes
its `upd` value, any other key keeps its `base` value. -/
theorem dictGet_dictUpdate (base upd : Meta) (k : String) :
    dictGet (dictUpdate base upd) k =
      if (dictGet upd k).isSome then dictGet upd k else dictGet base k := by
  have hgl : dictGet (dictUpdate base upd) k =
      ((dictUpdate base upd).find? (fun p => p.1 == k)).map (fun p => p.2) := rfl
  have hgb : dictGet base k =
      (base.find? (fun p => p.1 == k)).map (fun p => p.2) := rfl
  have hgu : dictGet upd k =
      (upd.find? (fun p => p.1 == k)).map (fun p => p.2) := rfl
  rw [hgl]
  unfold dictUpdate
  rw [List.find?_append, List.find?_map]
  have hpf : ((fun p : String × Val => p.1 == k) ∘
      fun p : String × Val => (p.1, (dictGet upd p.1).getD p.2)) =
      fun p : String × Val => p.1 == k := rfl
  rw [hpf]
  cases hu : upd.find? (fun p : String × Val => p.1 == k) with
  | none =>
    have hnu : dictGet upd k = none := by rw [hgu, hu]; rfl
    rw [find?_filter_none _ _ _ hu, Option.or_none, hnu, hgb]
    cases hb : base.find? (fun p : String × Val => p.1 == k) with
    | none => rfl
    | some b =>
      have hpb : (b.1 == k) = true := List.find?_some (p := fun p => p.1 == k) (a := b) hb
      have hbk : b.1 = k := eq_of_beq hpb
      have hub : dictGet upd b.1 = none := by rw [hbk]; exact hnu
      simp [hub]
  | some v =>
    have hpv : (v.1 == k) = true := List.find?_some (p := fun p => p.1 == k) (a := v) hu
    have hsu : dictGet upd k = some v.2 := by rw [hgu, hu]; rfl
    rw [hsu]
    cases hb : base.find? (fun p : String × Val => p.1 == k) with
    | some b =>
      have hpb : (b.1 == k) = true := List.find?_some (p := fun p => p.1 == k) (a := b) hb
      have hbk : b.1 = k := eq_of_beq hpb
      have hub : dictGet upd b.1 = some v.2 := by rw [hbk]; exact hsu
      simp [hub]
    | none =>
      have hnb : dictGet base k = none := by rw [hgb, hb]; rfl
      have himp : ∀ a : String × Val, (a.1 == k) = true →
          ((dictGet base a.1).isNone) = true := by
        intro a ha
        rw [eq_of_beq ha, hnb]
        rfl
      rw [find?_filter_of_imp _ _ _ himp, hu]
      simp

/-- Claim C10: when the agent handle exists and its `get_agent_info` call
succeeds, the adapter merges the agent's self-reported map into the base
map by key-overwriting update: every key the agent reports (including a
collision with a base field such as `setup_complete` or `adapter_type`)
takes the agent's value, and every other key keeps the
configuration-derived base value. -/
theorem get_agent_info_merge (s : AdapterState) (tools : List Tool)
    (info : Meta) (k : String)
    (h : s.agent = some { tools := tools, agent_info := .ok info }) :
    dictGet (get_agent_info s) k =
      if (dictGet info k).isSome then dictGet info k
      else dictGet (base_info s) k := by
  obtain ⟨kw, oag, olp⟩ := s
  have h2 : oag = some ⟨tools, .ok info⟩ := h
  subst h2
  exact dictGet_dictUpdate _ _ _

/-- Witness for `get_agent_info_merge`: the demo agent reports
`setup_complete`, which overrides the base field. -/
theorem get_agent_info_merge_witness :
    dictGet (get_agent_info readyState) "setup_complete" =
      if (dictGet [("agent_type", Val.str "langgraph"),
                   ("setup_complete", Val.str "yes")] "setup_complete").isSome
      then dictGet [("agent_type", Val.str "langgraph"),
                    ("setup_complete", Val.str "yes")] "setup_complete"
      else dictGet (base_info readyState) "setup_complete" :=
  get_agent_info_merge readyState
    [{ name := "execute_malloy_query"
       description := "Run a Malloy query"
       args_schema := none }]
    [("agent_type", Val.str "langgraph"), ("setup_complete", Val.str "yes")]
    "setup_complete" rfl

end Adapter
